import Mathlib

/-!
Shallow embedding of the image-editing core of the repository:
`src/core/processing_manager.py` (history manager + transform catalog +
persistence naming) and `src/core/pipeline.py` (the batch pipeline state
machine), together with theorems settling the spec claims about them.

External collaborators (OpenCV filters, the on-disk writer, the image
decoder) are modelled as parameters: the engine's bookkeeping never
inspects pixel output of a filter, only threads it through, exactly as the
Python code treats `cv2`.
-/

/-- A decoded raster, mirroring the `numpy.ndarray` values the manager
stores: `shape[:2] = (height, width)`, `ndim` (2 for grayscale, 3 for
color), and the sample grid (rows × columns × per-pixel samples).
`size` mirrors `ndarray.size` (total number of samples). -/
structure Image where
  height : Nat
  width : Nat
  ndim : Nat
  data : List (List (List Nat))
deriving Repr, DecidableEq

namespace Image

/-- `ndarray.size`: total number of scalar samples in the grid. -/
def size (img : Image) : Nat :=
  (img.data.map (fun row => (row.map List.length).sum)).sum

/-- `img[y:y2, x:x2]` (numpy row-major slicing, as in `apply_crop`). -/
def slice2d (img : Image) (y y2 x x2 : Nat) : Image :=
  { height := y2 - y
    width := x2 - x
    ndim := img.ndim
    data := ((img.data.drop y).take (y2 - y)).map
      (fun row => (row.drop x).take (x2 - x)) }

end Image

/-- The external OpenCV / filesystem collaborators used by
`ProcessingManager`; the Python code calls these through `cv2`. `imwrite`
returns `Except.error ()` when the write raises and `Except.ok b` when it
returns status flag `b` (the code ignores `b`). -/
structure CVLib where
  medianBlur : Image → Int → Image
  gaussianBlur : Image → Int → Rat → Image
  bilateralFilter : Image → Int → Rat → Rat → Image
  rotate90cw : Image → Image
  rotate180 : Image → Image
  rotate90ccw : Image → Image
  flipH : Image → Image
  flipV : Image → Image
  bgr2gray : Image → Image
  gray2bgr : Image → Image
  warpAffineReflect : Image → Int → Int → Image
  bgr2ycrcb : Image → Image
  ycrcb2bgr : Image → Image
  split3 : Image → Image × Image × Image
  merge3 : Image → Image → Image → Image
  equalizeHist : Image → Image
  imwrite : String → Image → Except Unit Bool

/-- The error signals the manager's methods raise (`ValueError` /
propagated `cv2` exceptions in the Python source, one constructor per
raise site). -/
inductive PMError where
  | noImage                   -- "当前没有可处理的图像"
  | decodeFailed              -- load_image raised
  | emptyLoadedImage          -- "加载到的图像为空"
  | cropSizeNotPositive       -- "裁剪宽高必须为正数"
  | cropOriginOutOfRange      -- "裁剪起点超出图像范围"
  | cropRegionInvalid         -- "裁剪区域无效"
  | unsupportedDenoiseMethod  -- "不支持的降噪方法"
  | unsupportedRotateAngle    -- "目前仅支持 90/180/270 度旋转"
  | unsupportedConvertMode    -- "不支持的格式转换模式"
  | unsupportedFlipMode       -- "翻转模式仅支持 h / v"
  | ioError                   -- cv2.imwrite raised during persistence
deriving Repr, DecidableEq

/-- Spec §7 taxonomy: `InvalidGeometry` covers a crop region that
degenerates to an empty or non-overlapping area. -/
def PMError.isInvalidGeometry : PMError → Bool
  | .cropOriginOutOfRange => true
  | .cropRegionInvalid => true
  | _ => false

/-- The mutable attributes of a `ProcessingManager` instance
(`__init__`, `src/core/processing_manager.py` lines 20–30). -/
structure ProcessingManager where
  original_path : Option String
  original_name : Option String
  history : List Image
  history_tags : List String
  history_files : List String
  current_index : Int
deriving Repr, DecidableEq

/-- Result of a manager method: the post-call object state together with
either a returned value or a raised error.  A Python `raise` before any
attribute assignment leaves the object as it was, which every error site
in the source does, so `err` carries the unchanged state. -/
inductive Outcome (α : Type) where
  | ok (s : ProcessingManager) (v : α)
  | err (s : ProcessingManager) (e : PMError)
deriving Repr, DecidableEq

/-- The object state after the call, whether it returned or raised. -/
def Outcome.state {α} : Outcome α → ProcessingManager
  | .ok s _ => s
  | .err s _ => s

namespace ProcessingManager

/-- Freshly constructed manager (`__init__`). -/
def initial : ProcessingManager :=
  { original_path := none
    original_name := none
    history := []
    history_tags := []
    history_files := []
    current_index := -1 }

/-- `has_image` (line 34). -/
def has_image (s : ProcessingManager) : Bool :=
  decide (0 ≤ s.current_index) && decide (0 < s.history.length)

/-- `get_current_img` (line 37): `self._history[self._current_index]`
guarded by `has_image`. -/
def get_current_img (s : ProcessingManager) : Option Image :=
  if has_image s then s.history.get? s.current_index.toNat else none

/-- `can_undo` (line 97). -/
def can_undo (s : ProcessingManager) : Bool :=
  decide (0 < s.current_index)

/-- `can_redo` (line 100). -/
def can_redo (s : ProcessingManager) : Bool :=
  decide (s.current_index < (s.history.length : Int) - 1)

/-- `undo` (lines 103–112): decrement the index when possible, otherwise a
no-op (the Python method then returns `None`). -/
def undo (s : ProcessingManager) : ProcessingManager :=
  if can_undo s then { s with current_index := s.current_index - 1 } else s

/-- `redo` (lines 114–123). -/
def redo (s : ProcessingManager) : ProcessingManager :=
  if can_redo s then { s with current_index := s.current_index + 1 } else s

/-- `os.path.basename`: the part after the last `/`. -/
def path_basename (p : String) : String :=
  String.mk ((p.data.reverse.takeWhile (fun c => c != '/')).reverse)

/-- The largest index holding a `.`, if any. -/
def last_dot_index (cs : List Char) : Option Nat :=
  ((List.range cs.length).filter (fun i => cs.get? i = some '.')).getLast?

/-- The name part of `os.path.splitext`: cut at the last dot, except that
a run of leading dots (as in `.bashrc`) is part of the name, as in
CPython's implementation. -/
def splitext_name (b : String) : String :=
  let cs := b.data
  match last_dot_index cs with
  | none => b
  | some i =>
    if (cs.take i).all (fun c => c == '.') then b else String.mk (cs.take i)

/-- Tag sanitisation in `_save_step_image` (line 134):
`tag.replace(" ", "").replace("(", "").replace(")", "")` — each pattern is
a single character, so the three replacements delete exactly the space and
parenthesis characters. -/
def sanitize_tag (tag : String) : String :=
  String.mk (tag.data.filter (fun c => !(c == ' ' || c == '(' || c == ')')))

/-- The file name `_save_step_image` builds (lines 127–135):
`f"{base_name}_step{step_index}_{safe_tag}.png"` with
`step_index = len(self._history)` taken before any truncation. -/
def step_file_name (s : ProcessingManager) (tag : String) : String :=
  let base_name := s.original_name.getD "image"
  let step_index := s.history.length
  base_name ++ "_step" ++ toString step_index ++ "_" ++ sanitize_tag tag ++ ".png"

/-- `_save_step_image` (lines 127–138): build the name, call
`cv2.imwrite` (whose boolean status is ignored; an exception propagates),
return the file name. -/
def save_step_image (cv : CVLib) (s : ProcessingManager) (img : Image)
    (tag : String) : Except Unit String :=
  let filename := step_file_name s tag
  match cv.imwrite filename img with
  | .error _ => .error ()
  | .ok _ => .ok filename

/-- `_push_history` (lines 140–148): truncate the three parallel lists to
`current_index + 1` entries, append the new entry, move the index to the
new last position. -/
def push_history (s : ProcessingManager) (img : Image) (tag : String)
    (saved_file : String) : ProcessingManager :=
  let keep := (s.current_index + 1).toNat
  let h := s.history.take keep ++ [img]
  { s with
    history := h
    history_tags := s.history_tags.take keep ++ [tag]
    history_files := s.history_files.take keep ++ [saved_file]
    current_index := (h.length : Int) - 1 }

/-- The shared tail of every `apply_*` method: `_save_step_image` followed
by `_push_history` (e.g. lines 187–188); an `imwrite` exception propagates
before the history is touched. -/
def commit_step (cv : CVLib) (s : ProcessingManager) (out : Image)
    (tag : String) : Outcome Image :=
  match save_step_image cv s out tag with
  | .error _ => .err s .ioError
  | .ok saved_file => .ok (push_history s out tag saved_file) out

/-- `load_original` (lines 74–93).  `decoded` is the outcome of the
`load_image` collaborator: `.error ()` when it raised, `.ok none` for a
`None` result, `.ok (some img)` for a decoded buffer; the method then
rejects an empty buffer before resetting the session. -/
def load_original (s : ProcessingManager) (path : String)
    (decoded : Except Unit (Option Image)) : Outcome Image :=
  match decoded with
  | .error _ => .err s .decodeFailed
  | .ok none => .err s .emptyLoadedImage
  | .ok (some img) =>
    if img.size = 0 then .err s .emptyLoadedImage
    else
      let base := path_basename path
      let name := splitext_name base
      .ok { s with
            original_path := some path
            original_name := some name
            history := [img]
            history_tags := ["原图"]
            history_files := [""]
            current_index := 0 } img

/-- `apply_denoise` (lines 152–195): correct the kernel size, dispatch on
the method string, then persist and push. -/
def apply_denoise (cv : CVLib) (s : ProcessingManager) (method : String)
    (ksize : Int) (sigmaX : Rat) (bilateral_d : Int)
    (bilateral_sigma_color bilateral_sigma_space : Rat) : Outcome Image :=
  match get_current_img s with
  | none => .err s .noImage
  | some img =>
    let k1 := if ksize ≤ 0 then 3 else ksize
    let k2 := if k1 % 2 = 0 then k1 + 1 else k1
    if method = "median" then
      commit_step cv s (cv.medianBlur img k2) ("D_median" ++ toString k2)
    else if method = "gaussian" then
      commit_step cv s
        (cv.gaussianBlur img k2 (if 0 < sigmaX then sigmaX else 0))
        ("D_gauss" ++ toString k2)
    else if method = "bilateral" then
      commit_step cv s
        (cv.bilateralFilter img bilateral_d bilateral_sigma_color
          bilateral_sigma_space)
        ("D_bilat" ++ toString bilateral_d)
    else .err s .unsupportedDenoiseMethod

/-- `apply_crop` (lines 199–231): positivity check, clamp the origin,
range check, clip to the image bounds, degenerate-region check, slice. -/
def apply_crop (cv : CVLib) (s : ProcessingManager) (x y w h : Int) :
    Outcome Image :=
  match get_current_img s with
  | none => .err s .noImage
  | some img =>
    let h_img : Int := img.height
    let w_img : Int := img.width
    if w ≤ 0 ∨ h ≤ 0 then .err s .cropSizeNotPositive
    else
      let x1 := max 0 x
      let y1 := max 0 y
      if w_img ≤ x1 ∨ h_img ≤ y1 then .err s .cropOriginOutOfRange
      else
        let x2 := min w_img (x1 + w)
        let y2 := min h_img (y1 + h)
        if x2 ≤ x1 ∨ y2 ≤ y1 then .err s .cropRegionInvalid
        else
          let cropped := img.slice2d y1.toNat y2.toNat x1.toNat x2.toNat
          let tag := "Cr_" ++ toString x1 ++ "_" ++ toString y1 ++ "_"
            ++ toString (x2 - x1) ++ "x" ++ toString (y2 - y1)
          commit_step cv s cropped tag

/-- `apply_align` (lines 235–253): unconditional reflected translation. -/
def apply_align (cv : CVLib) (s : ProcessingManager) (dx dy : Int) :
    Outcome Image :=
  match get_current_img s with
  | none => .err s .noImage
  | some img =>
    let out := cv.warpAffineReflect img dx dy
    commit_step cv s out ("A_" ++ toString dx ++ "_" ++ toString dy)

/-- `apply_color_convert` (lines 257–285). -/
def apply_color_convert (cv : CVLib) (s : ProcessingManager)
    (mode : String) : Outcome Image :=
  match get_current_img s with
  | none => .err s .noImage
  | some img =>
    if mode = "gray" then
      let out := if img.ndim = 2 then img else cv.bgr2gray img
      commit_step cv s out "C_toGray"
    else if mode = "rgb" then
      let out := if img.ndim = 3 then img else cv.gray2bgr img
      commit_step cv s out "C_toRGB"
    else .err s .unsupportedConvertMode

/-- `apply_rotate` (lines 289–315): `angle % 360` then dispatch on
90/180/270, anything else raises. -/
def apply_rotate (cv : CVLib) (s : ProcessingManager) (angle : Int) :
    Outcome Image :=
  match get_current_img s with
  | none => .err s .noImage
  | some img =>
    let a := angle % 360
    if a = 90 then commit_step cv s (cv.rotate90cw img) "R_90"
    else if a = 180 then commit_step cv s (cv.rotate180 img) "R_180"
    else if a = 270 then commit_step cv s (cv.rotate90ccw img) "R_270"
    else .err s .unsupportedRotateAngle

/-- `apply_flip` (lines 319–341). -/
def apply_flip (cv : CVLib) (s : ProcessingManager) (mode : String) :
    Outcome Image :=
  match get_current_img s with
  | none => .err s .noImage
  | some img =>
    if mode = "h" then commit_step cv s (cv.flipH img) "F_h"
    else if mode = "v" then commit_step cv s (cv.flipV img) "F_v"
    else .err s .unsupportedFlipMode

/-- `apply_hist_equalize` (lines 345–369): grayscale equalises directly;
color equalises the Y channel of a YCrCb decomposition. -/
def apply_hist_equalize (cv : CVLib) (s : ProcessingManager) :
    Outcome Image :=
  match get_current_img s with
  | none => .err s .noImage
  | some img =>
    let out :=
      if img.ndim = 2 then cv.equalizeHist img
      else
        let ycrcb := cv.bgr2ycrcb img
        let chans := cv.split3 ycrcb
        let y_eq := cv.equalizeHist chans.1
        cv.ycrcb2bgr (cv.merge3 y_eq chans.2.1 chans.2.2)
    commit_step cv s out "HEq"

end ProcessingManager

/-! ## Iterated operations and reachable session states -/

namespace ProcessingManager

/-- A sequence of committed entries: each successful transform's history
effect is one `_push_history` call with the new buffer, tag and saved
file name. -/
def commit_list (s : ProcessingManager)
    (cs : List (Image × String × String)) : ProcessingManager :=
  cs.foldl (fun t c => push_history t c.1 c.2.1 c.2.2) s

/-- `undo()` called `n` times. -/
def undo_times : ProcessingManager → Nat → ProcessingManager
  | s, 0 => s
  | s, n + 1 => undo_times (undo s) n

/-- `redo()` called `n` times. -/
def redo_times : ProcessingManager → Nat → ProcessingManager
  | s, 0 => s
  | s, n + 1 => redo_times (redo s) n

/-- The index invariant of the spec's HistorySequence: a non-empty history
has `0 ≤ current_index < length`, and the history is empty only in the
distinguished no-image state with the `-1` sentinel. -/
def good_state (s : ProcessingManager) : Prop :=
  (s.history = [] ∧ s.current_index = -1) ∨
  (s.history ≠ [] ∧ 0 ≤ s.current_index ∧
    s.current_index < (s.history.length : Int))

/-- Session states reachable from a fresh manager by any sequence of
loads, transform commits, undos and redos (each constructor is the
post-call state of the corresponding method, whether it returned or
raised). -/
inductive Reachable : ProcessingManager → Prop where
  | init : Reachable initial
  | load (s : ProcessingManager) (path : String)
      (dec : Except Unit (Option Image)) :
      Reachable s → Reachable (load_original s path dec).state
  | denoise (cv : CVLib) (s : ProcessingManager) (method : String)
      (ksize : Int) (sigmaX : Rat) (d : Int) (sc ss : Rat) :
      Reachable s → Reachable (apply_denoise cv s method ksize sigmaX d sc ss).state
  | crop (cv : CVLib) (s : ProcessingManager) (x y w h : Int) :
      Reachable s → Reachable (apply_crop cv s x y w h).state
  | align (cv : CVLib) (s : ProcessingManager) (dx dy : Int) :
      Reachable s → Reachable (apply_align cv s dx dy).state
  | color_convert (cv : CVLib) (s : ProcessingManager) (mode : String) :
      Reachable s → Reachable (apply_color_convert cv s mode).state
  | rotate (cv : CVLib) (s : ProcessingManager) (angle : Int) :
      Reachable s → Reachable (apply_rotate cv s angle).state
  | flip (cv : CVLib) (s : ProcessingManager) (mode : String) :
      Reachable s → Reachable (apply_flip cv s mode).state
  | hist_equalize (cv : CVLib) (s : ProcessingManager) :
      Reachable s → Reachable (apply_hist_equalize cv s).state
  | undo_call (s : ProcessingManager) :
      Reachable s → Reachable (undo s)
  | redo_call (s : ProcessingManager) :
      Reachable s → Reachable (redo s)

end ProcessingManager

/-! ## Concrete sample data used to instantiate the theorems -/

/-- A 2×2 grayscale sample raster. -/
def sampleImage : Image :=
  { height := 2, width := 2, ndim := 2, data := [[[1], [2]], [[3], [4]]] }

/-- A 100-pixel-wide raster (one row), for the crop boundary scenario. -/
def wideImage : Image :=
  { height := 1, width := 100, ndim := 2, data := [List.replicate 100 [5]] }

/-- A collaborator assignment whose filters are identities and whose
`imwrite` succeeds; the manager's bookkeeping is oblivious to the choice. -/
def cvOk : CVLib :=
  { medianBlur := fun i _ => i
    gaussianBlur := fun i _ _ => i
    bilateralFilter := fun i _ _ _ => i
    rotate90cw := id
    rotate180 := id
    rotate90ccw := id
    flipH := id
    flipV := id
    bgr2gray := id
    gray2bgr := id
    warpAffineReflect := fun i _ _ => i
    bgr2ycrcb := id
    ycrcb2bgr := id
    split3 := fun i => (i, i, i)
    merge3 := fun i _ _ => i
    equalizeHist := id
    imwrite := fun _ _ => .ok true }

/-- Same collaborators but every `imwrite` call raises. -/
def cvRaise : CVLib := { cvOk with imwrite := fun _ _ => .error () }

/-- The session right after loading `img.png` (the state `load_original`
produces from a fresh manager). -/
def sLoaded : ProcessingManager :=
  { original_path := some "img.png"
    original_name := some "img"
    history := [sampleImage]
    history_tags := ["原图"]
    history_files := [""]
    current_index := 0 }

/-- A session whose current image is 100 pixels wide. -/
def sWide : ProcessingManager :=
  { original_path := some "wide.png"
    original_name := some "wide"
    history := [wideImage]
    history_tags := ["原图"]
    history_files := [""]
    current_index := 0 }

/-! ## The batch pipeline state machine (`src/core/pipeline.py`) -/

/-- `State` enum (`pipeline.py` lines 11–17). -/
inductive PState where
  | IDLE
  | IMPORT
  | PREPROCESS
  | ANNOTATE
  | AI_DIAGNOSIS
  | OUTPUT
deriving Repr, DecidableEq

/-- The attribute names the `Preprocessor` class defines
(`src/core/preprocessing.py` lines 6–58): its methods are `denoise`,
`align`, `crop`, `convert_format` and `run`. -/
def preprocessorAttrs : List String :=
  ["denoise", "align", "crop", "convert_format", "run"]

/-- Outcome of one `ImageProcessingPipeline.run` call: the machine's
`self.state` when the call ends (normally or by an uncaught exception)
and the exception, if one was raised. -/
structure PipelineRun where
  final_state : PState
  raised : Option String
deriving Repr, DecidableEq

/-- `ImageProcessingPipeline.run` (`pipeline.py` lines 33–85), threading
`self.state` through the stages.  `load_result` is the outcome of the
`load_image` collaborator.  Line 52 calls `self.preprocessor.run_all(image)`:
Python resolves the attribute `run_all` on the `Preprocessor` instance, so
the call raises `AttributeError` unless `run_all` is among the class's
attributes. -/
def pipeline_run (load_result : Except Unit Image) : PipelineRun :=
  -- self.state = State.IMPORT; image = load_image(image_path)
  match load_result with
  | .error _ => { final_state := .IMPORT, raised := some "load_image raised" }
  | .ok _image =>
    -- self.state = State.PREPROCESS; self.preprocessor.run_all(image)
    if "run_all" ∈ preprocessorAttrs then
      -- the remaining stages run unconditionally once preprocessing returns
      { final_state := .IDLE, raised := none }
    else
      { final_state := .PREPROCESS
        raised := some "AttributeError: Preprocessor object has no attribute run_all" }

/-! ## Shared lemmas -/

namespace ProcessingManager

/-- `commit_step` can only raise the persistence error: its validation has
already happened in the caller. -/
theorem commit_step_err (cv : CVLib) (s : ProcessingManager) (out : Image)
    (tag : String) (st : ProcessingManager) (e : PMError)
    (h : commit_step cv s out tag = .err st e) : st = s ∧ e = .ioError := by
  unfold commit_step at h
  cases hw : save_step_image cv s out tag with
  | error u => rw [hw] at h; exact ⟨(Outcome.err.inj h).1.symm, (Outcome.err.inj h).2.symm⟩
  | ok f => rw [hw] at h; exact absurd h (by simp)

/-- An element appended at the end of a list sits at index `length`. -/
theorem get_append_singleton {α : Type} (l : List α) (a : α) :
    (l ++ [a]).get? l.length = some a := by
  induction l with
  | nil => rfl
  | cons x xs ih => simp [ih]

/-- Truncating to `n ≤ length` entries and appending puts the new element
at index `n`. -/
theorem get_take_append_singleton {α : Type} (l : List α) (n : Nat) (a : α)
    (h : n ≤ l.length) : (l.take n ++ [a]).get? n = some a := by
  have hx := get_append_singleton (l.take n) a
  rwa [List.length_take, Nat.min_eq_left h] at hx

/-- A successful `_save_step_image` returns exactly the deterministic
step file name. -/
theorem save_ok_name (cv : CVLib) (s : ProcessingManager) (img : Image)
    (tag f : String) (h : save_step_image cv s img tag = .ok f) :
    f = step_file_name s tag := by
  simp only [save_step_image] at h
  cases hw : cv.imwrite (step_file_name s tag) img with
  | error u => rw [hw] at h; cases h
  | ok b => rw [hw] at h; exact (Except.ok.inj h).symm

/-- A successful commit is exactly a `_push_history` of the new buffer,
tag and deterministic file name. -/
theorem commit_step_ok (cv : CVLib) (s : ProcessingManager) (out : Image)
    (tag : String) (s' : ProcessingManager) (v : Image)
    (h : commit_step cv s out tag = .ok s' v) :
    s' = push_history s out tag (step_file_name s tag) ∧ v = out := by
  unfold commit_step at h
  cases hw : save_step_image cv s out tag with
  | error u => rw [hw] at h; cases h
  | ok f =>
    rw [hw] at h
    obtain ⟨h1, h2⟩ := Outcome.ok.inj h
    rw [save_ok_name cv s out tag f hw] at h1
    exact ⟨h1.symm, h2.symm⟩

end ProcessingManager

/-! ## Claims -/

/-- C10: if a new image load fails (the decoder raises, the decoded buffer
is absent, or it has zero size), `load_original` raises and the entire
prior session state — history, tags, files, `current_index`, recorded
original path and name — is left exactly as it was; prior history is
discarded only on a successful load. -/
theorem ProcessingManager.load_failure_preserves_state
    (s : ProcessingManager) (path : String) :
    load_original s path (.error ()) = .err s .decodeFailed ∧
    load_original s path (.ok none) = .err s .emptyLoadedImage ∧
    ∀ img : Image, img.size = 0 →
      load_original s path (.ok (some img)) = .err s .emptyLoadedImage := by
  refine ⟨rfl, rfl, fun img h => ?_⟩
  simp [load_original, h]

/-- Witness for C10 at a concrete zero-size buffer. -/
theorem ProcessingManager.load_failure_preserves_state_witness :
    (Image.mk 0 0 2 []).size = 0 ∧
    ProcessingManager.load_original ProcessingManager.initial "a.png"
      (.ok (some (Image.mk 0 0 2 []))) =
      .err ProcessingManager.initial .emptyLoadedImage :=
  ⟨rfl, (ProcessingManager.load_failure_preserves_state
    ProcessingManager.initial "a.png").2.2 (Image.mk 0 0 2 []) rfl⟩

/-- C5 counterexample: with a persistence writer that raises, the error is
surfaced, but — contrary to the claim — the in-memory commit does NOT take
place: the history still has its single entry and `current_index` has not
advanced. -/
theorem write_raise_no_commit_cex :
    ProcessingManager.apply_denoise cvRaise sLoaded "median" 3 0 5 75 75 =
      Outcome.err sLoaded PMError.ioError ∧
    (ProcessingManager.apply_denoise cvRaise sLoaded "median" 3 0 5 75 75).state.history.length = 1 ∧
    (ProcessingManager.apply_denoise cvRaise sLoaded "median" 3 0 5 75 75).state.current_index = 0 := by
  exact ⟨by decide, by decide, by decide⟩

/-- C5 (amended): a persistence write that raises aborts the commit — the
error propagates to the caller and the in-memory history is untouched;
a write that merely reports failure through its status flag is ignored and
the commit proceeds with no error signal (the flag is never read). -/
theorem ProcessingManager.persistence_failure_behavior
    (cv : CVLib) (s : ProcessingManager) (out : Image) (tag : String) :
    (cv.imwrite (step_file_name s tag) out = .error () →
      commit_step cv s out tag = .err s .ioError) ∧
    ∀ b : Bool, cv.imwrite (step_file_name s tag) out = .ok b →
      commit_step cv s out tag =
        .ok (push_history s out tag (step_file_name s tag)) out := by
  constructor
  · intro h
    simp [commit_step, save_step_image, h]
  · intro b h
    simp [commit_step, save_step_image, h]

/-- Witness for amended C5: both writer behaviours at a concrete commit. -/
theorem ProcessingManager.persistence_failure_behavior_witness :
    cvRaise.imwrite (ProcessingManager.step_file_name sLoaded "T") sampleImage = .error () ∧
    ProcessingManager.commit_step cvRaise sLoaded sampleImage "T" =
      .err sLoaded .ioError ∧
    cvOk.imwrite (ProcessingManager.step_file_name sLoaded "T") sampleImage = .ok true ∧
    ProcessingManager.commit_step cvOk sLoaded sampleImage "T" =
      .ok (ProcessingManager.push_history sLoaded sampleImage "T"
        (ProcessingManager.step_file_name sLoaded "T")) sampleImage :=
  ⟨rfl,
   (ProcessingManager.persistence_failure_behavior cvRaise sLoaded sampleImage "T").1 rfl,
   rfl,
   (ProcessingManager.persistence_failure_behavior cvOk sLoaded sampleImage "T").2 true rfl⟩

/-- C4 counterexample: load `img.png`, rotate (entry 1, file
`img_step1_R_90.png`), undo, rotate again: the new entry occupies
position 1 after the commit, but its persisted name is
`img_step2_R_90.png` — not `img_step1_R_90.png` as the claim's formula
with N = post-commit position requires. -/
theorem step_name_mismatch_after_undo_cex :
    (ProcessingManager.apply_rotate cvOk
        (ProcessingManager.undo (ProcessingManager.apply_rotate cvOk sLoaded 90).state)
        90).state.history_files.get? 1 = some "img_step2_R_90.png" ∧
    ((ProcessingManager.undo
        (ProcessingManager.apply_rotate cvOk sLoaded 90).state).current_index + 1).toNat = 1 ∧
    "img_step2_R_90.png" ≠
      "img" ++ "_step" ++ toString (1 : Nat) ++ "_" ++ ProcessingManager.sanitize_tag "R_90" ++ ".png" := by
  exact ⟨by decide, by decide, by decide⟩

/-- C4 (amended): the persisted name is
`{base_name}_step{N}_{sanitized_tag}.png` where `N` is the history length
at the moment of saving — i.e. before the pending redo tail is truncated.
The committed entry occupies position `current_index + 1`, and `N`
coincides with that position exactly when no undo is pending
(`current_index = length - 1`). -/
theorem ProcessingManager.step_name_pre_truncation_length
    (cv : CVLib) (s : ProcessingManager) (out : Image) (tag f : String)
    (h : save_step_image cv s out tag = .ok f)
    (h0 : 0 ≤ s.current_index)
    (h1 : s.current_index < (s.history.length : Int))
    (hf : s.history_files.length = s.history.length) :
    f = (s.original_name.getD "image") ++ "_step" ++ toString s.history.length
      ++ "_" ++ sanitize_tag tag ++ ".png" ∧
    (∀ s' v, commit_step cv s out tag = .ok s' v →
      s'.history_files.get? ((s.current_index + 1).toNat) = some f) ∧
    ((s.current_index + 1).toNat = s.history.length ↔
      s.current_index = (s.history.length : Int) - 1) := by
  have hfname : f = step_file_name s tag := by
    simp only [save_step_image] at h
    cases hw : cv.imwrite (step_file_name s tag) out with
    | error u => rw [hw] at h; cases h
    | ok b => rw [hw] at h; exact (Except.ok.inj h).symm
  refine ⟨hfname, ?_, by omega⟩
  intro s' v hc
  unfold commit_step at hc
  rw [h] at hc
  obtain ⟨hs', _⟩ := Outcome.ok.inj hc
  subst hs'
  show (s.history_files.take ((s.current_index + 1).toNat) ++ [f]).get?
    ((s.current_index + 1).toNat) = some f
  exact get_take_append_singleton _ _ f (by omega)

/-- Witness for amended C4 at a concrete commit. -/
theorem ProcessingManager.step_name_pre_truncation_length_witness :
    ProcessingManager.save_step_image cvOk sLoaded sampleImage "T" = .ok "img_step1_T.png" ∧
    "img_step1_T.png" = "img" ++ "_step" ++ toString sLoaded.history.length
      ++ "_" ++ ProcessingManager.sanitize_tag "T" ++ ".png" :=
  ⟨rfl,
   (ProcessingManager.step_name_pre_truncation_length cvOk sLoaded sampleImage "T"
     "img_step1_T.png" rfl (by decide) (by decide) (by decide)).1⟩

/-- C9: the claim says one pipeline run walks Idle→Import→Preprocess→
Annotate→Diagnose→Output and ends back in Idle; in fact `run` calls
`self.preprocessor.run_all(image)` but `Preprocessor` defines no `run_all`
attribute, so every run with a successfully decoded image dies with an
`AttributeError` in the PREPROCESS state and never returns to IDLE. -/
theorem pipeline_run_stuck_in_preprocess (img : Image) :
    "run_all" ∉ preprocessorAttrs ∧
    (pipeline_run (.ok img)).final_state = PState.PREPROCESS ∧
    (pipeline_run (.ok img)).final_state ≠ PState.IDLE ∧
    (pipeline_run (.ok img)).raised ≠ none := by
  refine ⟨by decide, ?_, ?_, ?_⟩ <;> simp [pipeline_run, preprocessorAttrs]

/-- C2: a successful transform commit first drops every entry (buffer,
tag, persisted name) at a position strictly greater than `current_index`,
then appends exactly one new entry at position `current_index + 1`, and
moves `current_index` to the new last position — so after an undo, a new
commit leaves the previously redoable tail gone from the session. -/
theorem ProcessingManager.commit_truncates_appends_advances
    (cv : CVLib) (s : ProcessingManager) (out : Image) (tag : String)
    (h0 : 0 ≤ s.current_index)
    (h1 : s.current_index < (s.history.length : Int))
    (htags : s.history_tags.length = s.history.length)
    (hfiles : s.history_files.length = s.history.length) :
    ∀ s' v, commit_step cv s out tag = .ok s' v →
      s'.history.length = (s.current_index + 1).toNat + 1 ∧
      s'.history_tags.length = (s.current_index + 1).toNat + 1 ∧
      s'.history_files.length = (s.current_index + 1).toNat + 1 ∧
      (∀ j : Nat, j < (s.current_index + 1).toNat →
        s'.history.get? j = s.history.get? j ∧
        s'.history_tags.get? j = s.history_tags.get? j ∧
        s'.history_files.get? j = s.history_files.get? j) ∧
      s'.history.get? ((s.current_index + 1).toNat) = some out ∧
      s'.history_tags.get? ((s.current_index + 1).toNat) = some tag ∧
      s'.history_files.get? ((s.current_index + 1).toNat) =
        some (step_file_name s tag) ∧
      (∀ j : Nat, (s.current_index + 1).toNat < j →
        s'.history.get? j = none ∧ s'.history_tags.get? j = none ∧
        s'.history_files.get? j = none) ∧
      s'.current_index = (s'.history.length : Int) - 1 := by
  intro s' v hc
  obtain ⟨hs', -⟩ := commit_step_ok cv s out tag s' v hc
  subst hs'
  set n := (s.current_index + 1).toNat with hn
  have hnle : n ≤ s.history.length := by omega
  have hlen : ∀ l : List Image, (l.take n).length = min n l.length :=
    fun l => List.length_take n l
  constructor
  · simp [push_history, List.length_take]; omega
  constructor
  · simp [push_history, List.length_take]; omega
  constructor
  · simp [push_history, List.length_take]; omega
  constructor
  · intro j hj
    refine ⟨?_, ?_, ?_⟩ <;>
    · show (List.take n _ ++ [_]).get? j = _
      rw [List.get?_append (by rw [List.length_take]; omega), List.get?_take hj]
  constructor
  · exact get_take_append_singleton _ _ _ hnle
  constructor
  · exact get_take_append_singleton _ _ _ (by omega)
  constructor
  · exact get_take_append_singleton _ _ _ (by omega)
  constructor
  · intro j hj
    refine ⟨?_, ?_, ?_⟩ <;>
    · show (List.take n _ ++ [_]).get? j = none
      apply List.get?_len_le
      rw [List.length_append, List.length_take]
      simp
      omega
  · show ((s.history.take n ++ [out]).length : Int) - 1 =
      ((s.history.take n ++ [out]).length : Int) - 1
    rfl

/-- Witness for C2 at a concrete commit from the freshly loaded session. -/
theorem ProcessingManager.commit_truncates_appends_advances_witness :
    (0 : Int) ≤ sLoaded.current_index ∧
    sLoaded.current_index < (sLoaded.history.length : Int) ∧
    sLoaded.history_tags.length = sLoaded.history.length ∧
    sLoaded.history_files.length = sLoaded.history.length ∧
    ∀ s' v, ProcessingManager.commit_step cvOk sLoaded sampleImage "T" = .ok s' v →
      s'.history.length = (sLoaded.current_index + 1).toNat + 1 ∧
      s'.history_tags.length = (sLoaded.current_index + 1).toNat + 1 ∧
      s'.history_files.length = (sLoaded.current_index + 1).toNat + 1 ∧
      (∀ j : Nat, j < (sLoaded.current_index + 1).toNat →
        s'.history.get? j = sLoaded.history.get? j ∧
        s'.history_tags.get? j = sLoaded.history_tags.get? j ∧
        s'.history_files.get? j = sLoaded.history_files.get? j) ∧
      s'.history.get? ((sLoaded.current_index + 1).toNat) = some sampleImage ∧
      s'.history_tags.get? ((sLoaded.current_index + 1).toNat) = some "T" ∧
      s'.history_files.get? ((sLoaded.current_index + 1).toNat) =
        some (ProcessingManager.step_file_name sLoaded "T") ∧
      (∀ j : Nat, (sLoaded.current_index + 1).toNat < j →
        s'.history.get? j = none ∧ s'.history_tags.get? j = none ∧
        s'.history_files.get? j = none) ∧
      s'.current_index = (s'.history.length : Int) - 1 :=
  ⟨by decide, by decide, by decide, by decide,
   ProcessingManager.commit_truncates_appends_advances cvOk sLoaded sampleImage "T"
     (by decide) (by decide) (by decide) (by decide)⟩

/-- C6: for crop on a loaded image, a negative origin coordinate is
clamped to 0; requested width and height must be positive; the requested
rectangle is clipped to the image bounds; and whenever the clipped
rectangle has zero area the operation fails with an `InvalidGeometry`
error — in particular an origin at or beyond the image edge. -/
theorem ProcessingManager.apply_crop_validation
    (cv : CVLib) (s : ProcessingManager) :
    (∀ x y w h : Int,
      apply_crop cv s x y w h = apply_crop cv s (max 0 x) (max 0 y) w h) ∧
    (∀ img, get_current_img s = some img →
      (∀ x y w h : Int, w ≤ 0 ∨ h ≤ 0 →
        apply_crop cv s x y w h = .err s .cropSizeNotPositive) ∧
      (∀ x y w h : Int, 0 < w → 0 < h →
        (min (img.width : Int) (max 0 x + w) ≤ max 0 x ∨
         min (img.height : Int) (max 0 y + h) ≤ max 0 y) →
        ∃ e, apply_crop cv s x y w h = .err s e ∧ e.isInvalidGeometry = true) ∧
      (∀ x y w h : Int, 0 < w → 0 < h →
        max 0 x < (img.width : Int) → max 0 y < (img.height : Int) →
        apply_crop cv s x y w h =
          commit_step cv s
            (img.slice2d (max 0 y).toNat
              (min (img.height : Int) (max 0 y + h)).toNat
              (max 0 x).toNat
              (min (img.width : Int) (max 0 x + w)).toNat)
            ("Cr_" ++ toString (max 0 x) ++ "_" ++ toString (max 0 y) ++ "_"
              ++ toString (min (img.width : Int) (max 0 x + w) - max 0 x) ++ "x"
              ++ toString (min (img.height : Int) (max 0 y + h) - max 0 y)))) := by
  constructor
  · intro x y w h
    unfold apply_crop
    cases get_current_img s with
    | none => rfl
    | some img =>
      dsimp only
      rw [← max_assoc (0 : Int) 0 x, max_self, ← max_assoc (0 : Int) 0 y, max_self]
  · intro img himg
    refine ⟨?_, ?_, ?_⟩
    · intro x y w h hwh
      rcases hwh with hw | hh
      · simp [apply_crop, himg, hw]
      · simp [apply_crop, himg, hh]
    · intro x y w h hw hh hmin
      refine ⟨.cropOriginOutOfRange, ?_, rfl⟩
      simp only [apply_crop, himg]
      rw [if_neg (by omega), if_pos (by omega)]
    · intro x y w h hw hh hx1 hy1
      simp only [apply_crop, himg]
      rw [if_neg (by omega), if_neg (by omega), if_neg (by omega)]

/-- Witness for C6: the spec scenario — a crop request at `x = 150` on a
100-pixel-wide image fails with an `InvalidGeometry` error. -/
theorem ProcessingManager.apply_crop_validation_witness :
    ProcessingManager.get_current_img sWide = some wideImage ∧
    ∃ e, ProcessingManager.apply_crop cvOk sWide 150 0 10 10 = .err sWide e ∧
      e.isInvalidGeometry = true :=
  ⟨by decide,
   ((ProcessingManager.apply_crop_validation cvOk sWide).2 wideImage
     (by decide)).2.1 150 0 10 10 (by decide) (by decide) (by decide)⟩

/-- C7: every transform request that fails parameter or geometry
validation — unsupported denoise method, rotate angle not 90/180/270 mod
360, unsupported color-convert or flip mode, invalid crop rectangle —
yields an error with the session state (history, tags, files,
`current_index`) exactly as before the call, for every choice of the
pixel and persistence collaborators. -/
theorem ProcessingManager.validation_failure_preserves_state
    (cv : CVLib) (s : ProcessingManager) (img : Image)
    (himg : get_current_img s = some img) :
    (∀ (method : String) (ksize : Int) (sigmaX : Rat) (d : Int) (sc ss : Rat),
      method ∉ (["median", "gaussian", "bilateral"] : List String) →
      apply_denoise cv s method ksize sigmaX d sc ss =
        .err s .unsupportedDenoiseMethod) ∧
    (∀ angle : Int, angle % 360 ≠ 90 → angle % 360 ≠ 180 → angle % 360 ≠ 270 →
      apply_rotate cv s angle = .err s .unsupportedRotateAngle) ∧
    (∀ mode : String, mode ≠ "gray" → mode ≠ "rgb" →
      apply_color_convert cv s mode = .err s .unsupportedConvertMode) ∧
    (∀ mode : String, mode ≠ "h" → mode ≠ "v" →
      apply_flip cv s mode = .err s .unsupportedFlipMode) ∧
    (∀ x y w h : Int, w ≤ 0 ∨ h ≤ 0 →
      apply_crop cv s x y w h = .err s .cropSizeNotPositive) ∧
    (∀ x y w h : Int, 0 < w → 0 < h →
      (img.width : Int) ≤ max 0 x ∨ (img.height : Int) ≤ max 0 y →
      apply_crop cv s x y w h = .err s .cropOriginOutOfRange) := by
  refine ⟨?_, ?_, ?_, ?_, ?_, ?_⟩
  · intro method ksize sigmaX d sc ss hmem
    simp only [List.mem_cons, List.not_mem_nil, or_false, not_or] at hmem
    obtain ⟨h1, h2, h3⟩ := hmem
    simp [apply_denoise, himg, h1, h2, h3]
  · intro angle ha hb hc
    simp [apply_rotate, himg, ha, hb, hc]
  · intro mode h1 h2
    simp [apply_color_convert, himg, h1, h2]
  · intro mode h1 h2
    simp [apply_flip, himg, h1, h2]
  · intro x y w h hwh
    rcases hwh with hw | hh
    · simp [apply_crop, himg, hw]
    · simp [apply_crop, himg, hh]
  · intro x y w h hw hh hor
    simp only [apply_crop, himg]
    rw [if_neg (by omega), if_pos (by omega)]

/-- Witness for C7: a 45° rotation request raises and leaves the loaded
session untouched. -/
theorem ProcessingManager.validation_failure_preserves_state_witness :
    ProcessingManager.get_current_img sLoaded = some sampleImage ∧
    ProcessingManager.apply_rotate cvOk sLoaded 45 =
      .err sLoaded .unsupportedRotateAngle :=
  ⟨by decide,
   (ProcessingManager.validation_failure_preserves_state cvOk sLoaded sampleImage
     (by decide)).2.1 45 (by decide) (by decide) (by decide)⟩

/-- C8: denoising with an even kernel size `K ≥ 2` behaves exactly like
denoising with `K + 1` — same outcome, so same output buffer and tag — for
every method and collaborator choice; and for a supported method the even
size is never rejected: any error is the missing-image or persistence
error, never a parameter error. -/
theorem ProcessingManager.denoise_even_kernel_equiv
    (cv : CVLib) (s : ProcessingManager) (method : String) (ksize : Int)
    (sigmaX : Rat) (d : Int) (sc ss : Rat)
    (heven : ksize % 2 = 0) (h2 : 2 ≤ ksize) :
    apply_denoise cv s method ksize sigmaX d sc ss =
      apply_denoise cv s method (ksize + 1) sigmaX d sc ss ∧
    ((method = "median" ∨ method = "gaussian" ∨ method = "bilateral") →
      ∀ st e, apply_denoise cv s method ksize sigmaX d sc ss = .err st e →
        e = .noImage ∨ e = .ioError) := by
  have hks : ¬ ksize ≤ 0 := by omega
  have hks1 : ¬ ksize + 1 ≤ 0 := by omega
  have hodd : ¬ (ksize + 1) % 2 = 0 := by omega
  constructor
  · unfold apply_denoise
    cases get_current_img s with
    | none => rfl
    | some img =>
      dsimp only
      rw [if_neg hks, if_neg hks1, if_pos heven, if_neg hodd]
  · intro hm st e herr
    cases hc : get_current_img s with
    | none =>
      unfold apply_denoise at herr
      rw [hc] at herr
      exact Or.inl (Outcome.err.inj herr).2.symm
    | some img =>
      rcases hm with hmethod | hmethod | hmethod <;> subst hmethod <;>
        simp [apply_denoise, hc] at herr <;>
        exact Or.inr (commit_step_err cv s _ _ st e herr).2

/-- Witness for C8: kernel size 4 and kernel size 5 give the same
outcome on the loaded session. -/
theorem ProcessingManager.denoise_even_kernel_equiv_witness :
    (4 : Int) % 2 = 0 ∧ (2 : Int) ≤ 4 ∧
    ProcessingManager.apply_denoise cvOk sLoaded "median" 4 0 5 75 75 =
      ProcessingManager.apply_denoise cvOk sLoaded "median" 5 0 5 75 75 :=
  ⟨by decide, by decide,
   (ProcessingManager.denoise_even_kernel_equiv cvOk sLoaded "median" 4 0 5 75 75
     (by decide) (by decide)).1⟩

/-- `_push_history` from a well-indexed state advances the cursor by one
and grows the history to `current_index + 2` entries. -/
theorem ProcessingManager.push_history_facts (s : ProcessingManager)
    (img : Image) (tag file : String)
    (h0 : 0 ≤ s.current_index)
    (h1 : s.current_index < (s.history.length : Int)) :
    (push_history s img tag file).current_index = s.current_index + 1 ∧
    (push_history s img tag file).history.length =
      (s.current_index + 1).toNat + 1 := by
  simp only [push_history, List.length_append, List.length_take,
    List.length_singleton]
  omega

/-- After a block of commits from a well-indexed state, the cursor has
moved right by the number of commits and is still inside the history. -/
theorem ProcessingManager.commit_list_facts
    (cs : List (Image × String × String)) :
    ∀ s : ProcessingManager, 0 ≤ s.current_index →
      s.current_index < (s.history.length : Int) →
      (commit_list s cs).current_index = s.current_index + cs.length ∧
      (commit_list s cs).current_index <
        ((commit_list s cs).history.length : Int) ∧
      0 ≤ (commit_list s cs).current_index := by
  induction cs with
  | nil =>
    intro s h0 h1
    refine ⟨?_, h1, h0⟩
    simp [commit_list]
  | cons c cs ih =>
    intro s h0 h1
    have hp := push_history_facts s c.1 c.2.1 c.2.2 h0 h1
    have hstep : commit_list s (c :: cs) =
        commit_list (push_history s c.1 c.2.1 c.2.2) cs := rfl
    rw [hstep]
    have h0' : 0 ≤ (push_history s c.1 c.2.1 c.2.2).current_index := by omega
    have h1' : (push_history s c.1 c.2.1 c.2.2).current_index <
        ((push_history s c.1 c.2.1 c.2.2).history.length : Int) := by
      rw [hp.1, hp.2]; omega
    obtain ⟨ha, hb, hc⟩ := ih _ h0' h1'
    refine ⟨?_, hb, hc⟩
    rw [ha, hp.1]
    push_cast [List.length_cons]
    ring

/-- `undo()` iterated `n ≤ current_index` times just moves the cursor
back by `n`. -/
theorem ProcessingManager.undo_times_eq (n : Nat) :
    ∀ s : ProcessingManager, (n : Int) ≤ s.current_index →
      undo_times s n = { s with current_index := s.current_index - n } := by
  induction n with
  | zero =>
    intro s _
    show s = { s with current_index := s.current_index - 0 }
    simp
  | succ n ih =>
    intro s h
    have hcan : can_undo s = true := by
      unfold can_undo
      simp only [decide_eq_true_eq]
      omega
    have hu : undo s = { s with current_index := s.current_index - 1 } := by
      unfold undo
      rw [if_pos hcan]
    show undo_times (undo s) n = _
    rw [hu, ih { s with current_index := s.current_index - 1 }
      (by dsimp only; push_cast at h ⊢; omega)]
    dsimp only
    have harith : s.current_index - 1 - (n : Int) =
        s.current_index - ((n + 1 : Nat) : Int) := by push_cast; ring
    rw [harith]

/-- `redo()` iterated `n` times moves the cursor forward by `n` as long
as it stays within the history. -/
theorem ProcessingManager.redo_times_eq (n : Nat) :
    ∀ s : ProcessingManager,
      s.current_index + n ≤ (s.history.length : Int) - 1 →
      redo_times s n = { s with current_index := s.current_index + n } := by
  induction n with
  | zero =>
    intro s _
    show s = { s with current_index := s.current_index + 0 }
    simp
  | succ n ih =>
    intro s h
    have hcan : can_redo s = true := by
      unfold can_redo
      simp only [decide_eq_true_eq]
      push_cast at h
      omega
    have hr : redo s = { s with current_index := s.current_index + 1 } := by
      unfold redo
      rw [if_pos hcan]
    show redo_times (redo s) n = _
    rw [hr, ih { s with current_index := s.current_index + 1 }
      (by dsimp only; push_cast at h ⊢; omega)]
    dsimp only
    have harith : s.current_index + 1 + (n : Int) =
        s.current_index + ((n + 1 : Nat) : Int) := by push_cast; ring
    rw [harith]

/-- C1: from any loaded (well-indexed) session, committing `N` transforms
and then calling `undo()` `N` times followed by `redo()` `N` times
restores the manager to exactly the state reached after the commits —
same `current_index`, same entries, so the same current buffer, tag and
persisted file. -/
theorem ProcessingManager.undo_redo_round_trip
    (s : ProcessingManager) (cs : List (Image × String × String))
    (h0 : 0 ≤ s.current_index)
    (h1 : s.current_index < (s.history.length : Int)) :
    redo_times (undo_times (commit_list s cs) cs.length) cs.length =
      commit_list s cs := by
  obtain ⟨ha, hb, hc⟩ := commit_list_facts cs s h0 h1
  rw [undo_times_eq cs.length (commit_list s cs) (by omega)]
  rw [redo_times_eq cs.length _ (by dsimp only; omega)]
  dsimp only
  have harith : (commit_list s cs).current_index - cs.length + cs.length =
      (commit_list s cs).current_index := by ring
  rw [harith]

/-- Witness for C1: two commits, two undos, two redos on the freshly
loaded session. -/
theorem ProcessingManager.undo_redo_round_trip_witness :
    (0 : Int) ≤ sLoaded.current_index ∧
    sLoaded.current_index < (sLoaded.history.length : Int) ∧
    ProcessingManager.redo_times (ProcessingManager.undo_times
        (ProcessingManager.commit_list sLoaded
          [(sampleImage, "T", "f1"), (sampleImage, "U", "f2")]) 2) 2 =
      ProcessingManager.commit_list sLoaded
        [(sampleImage, "T", "f1"), (sampleImage, "U", "f2")] :=
  ⟨by decide, by decide,
   ProcessingManager.undo_redo_round_trip sLoaded
     [(sampleImage, "T", "f1"), (sampleImage, "U", "f2")]
     (by decide) (by decide)⟩

namespace ProcessingManager

/-- `_push_history` always leaves a non-empty history with the cursor at
its last position. -/
theorem good_push (s : ProcessingManager) (img : Image) (tag file : String) :
    good_state (push_history s img tag file) := by
  unfold good_state push_history
  dsimp only
  right
  refine ⟨?_, ?_, ?_⟩
  · intro hnil
    have hlen := congrArg List.length hnil
    simp [List.length_take] at hlen
  · rw [List.length_append, List.length_take, List.length_singleton]
    push_cast
    omega
  · rw [List.length_append, List.length_take, List.length_singleton]
    push_cast
    omega

/-- The save-then-push tail of every transform preserves the index
invariant. -/
theorem good_commit_step (cv : CVLib) (s : ProcessingManager) (out : Image)
    (tag : String) (hs : good_state s) :
    good_state (commit_step cv s out tag).state := by
  cases hw : save_step_image cv s out tag with
  | error u =>
    simp only [commit_step, hw, Outcome.state]
    exact hs
  | ok f =>
    simp only [commit_step, hw, Outcome.state]
    exact good_push s out tag f

theorem good_apply_denoise (cv : CVLib) (s : ProcessingManager)
    (method : String) (ksize : Int) (sigmaX : Rat) (d : Int) (sc ss : Rat)
    (hs : good_state s) :
    good_state (apply_denoise cv s method ksize sigmaX d sc ss).state := by
  unfold apply_denoise
  cases get_current_img s with
  | none => exact hs
  | some img =>
    dsimp only
    split
    · exact good_commit_step _ _ _ _ hs
    split
    · exact good_commit_step _ _ _ _ hs
    split
    · exact good_commit_step _ _ _ _ hs
    · exact hs

theorem good_apply_crop (cv : CVLib) (s : ProcessingManager) (x y w h : Int)
    (hs : good_state s) : good_state (apply_crop cv s x y w h).state := by
  unfold apply_crop
  cases get_current_img s with
  | none => exact hs
  | some img =>
    dsimp only
    split
    · exact hs
    split
    · exact hs
    split
    · exact hs
    · exact good_commit_step _ _ _ _ hs

theorem good_apply_align (cv : CVLib) (s : ProcessingManager) (dx dy : Int)
    (hs : good_state s) : good_state (apply_align cv s dx dy).state := by
  unfold apply_align
  cases get_current_img s with
  | none => exact hs
  | some img => exact good_commit_step _ _ _ _ hs

theorem good_apply_color_convert (cv : CVLib) (s : ProcessingManager)
    (mode : String) (hs : good_state s) :
    good_state (apply_color_convert cv s mode).state := by
  unfold apply_color_convert
  cases get_current_img s with
  | none => exact hs
  | some img =>
    dsimp only
    split
    · exact good_commit_step _ _ _ _ hs
    split
    · exact good_commit_step _ _ _ _ hs
    · exact hs

theorem good_apply_rotate (cv : CVLib) (s : ProcessingManager) (angle : Int)
    (hs : good_state s) : good_state (apply_rotate cv s angle).state := by
  unfold apply_rotate
  cases get_current_img s with
  | none => exact hs
  | some img =>
    dsimp only
    split
    · exact good_commit_step _ _ _ _ hs
    split
    · exact good_commit_step _ _ _ _ hs
    split
    · exact good_commit_step _ _ _ _ hs
    · exact hs

theorem good_apply_flip (cv : CVLib) (s : ProcessingManager) (mode : String)
    (hs : good_state s) : good_state (apply_flip cv s mode).state := by
  unfold apply_flip
  cases get_current_img s with
  | none => exact hs
  | some img =>
    dsimp only
    split
    · exact good_commit_step _ _ _ _ hs
    split
    · exact good_commit_step _ _ _ _ hs
    · exact hs

theorem good_apply_hist_equalize (cv : CVLib) (s : ProcessingManager)
    (hs : good_state s) : good_state (apply_hist_equalize cv s).state := by
  unfold apply_hist_equalize
  cases get_current_img s with
  | none => exact hs
  | some img => exact good_commit_step _ _ _ _ hs

theorem good_load_original (s : ProcessingManager) (path : String)
    (dec : Except Unit (Option Image)) (hs : good_state s) :
    good_state (load_original s path dec).state := by
  unfold load_original
  cases dec with
  | error u => exact hs
  | ok o =>
    cases o with
    | none => exact hs
    | some img =>
      dsimp only
      split
      · exact hs
      · right
        exact ⟨by simp [Outcome.state], by simp [Outcome.state],
          by simp [Outcome.state]⟩

theorem good_undo (s : ProcessingManager) (hs : good_state s) :
    good_state (undo s) := by
  unfold undo
  split
  · rename_i hcan
    unfold can_undo at hcan
    simp only [decide_eq_true_eq] at hcan
    rcases hs with ⟨he, hi⟩ | ⟨hne, hlo, hhi⟩
    · exact absurd hcan (by omega)
    · right
      exact ⟨hne, by dsimp only; omega, by dsimp only; omega⟩
  · exact hs

theorem good_redo (s : ProcessingManager) (hs : good_state s) :
    good_state (redo s) := by
  unfold redo
  split
  · rename_i hcan
    unfold can_redo at hcan
    simp only [decide_eq_true_eq] at hcan
    rcases hs with ⟨he, hi⟩ | ⟨hne, hlo, hhi⟩
    · rw [he] at hcan
      simp at hcan
      exact absurd hcan (by omega)
    · right
      exact ⟨hne, by dsimp only; omega, by dsimp only; omega⟩
  · exact hs

end ProcessingManager

/-- C3: in every session state reachable from a fresh manager by loads,
transform commits, undos and redos, a non-empty history has
`0 ≤ current_index < length`, and the history is empty only in the
distinguished no-image state, where `current_index` is the `-1`
sentinel. -/
theorem ProcessingManager.reachable_index_invariant (s : ProcessingManager)
    (h : Reachable s) :
    (s.history ≠ [] → 0 ≤ s.current_index ∧
      s.current_index < (s.history.length : Int)) ∧
    (s.history = [] → s.current_index = -1) := by
  have hg : good_state s := by
    induction h with
    | init => exact Or.inl ⟨rfl, rfl⟩
    | load s path dec hr ih => exact good_load_original s path dec ih
    | denoise cv s method ksize sigmaX d sc ss hr ih =>
      exact good_apply_denoise cv s method ksize sigmaX d sc ss ih
    | crop cv s x y w h hr ih => exact good_apply_crop cv s x y w h ih
    | align cv s dx dy hr ih => exact good_apply_align cv s dx dy ih
    | color_convert cv s mode hr ih => exact good_apply_color_convert cv s mode ih
    | rotate cv s angle hr ih => exact good_apply_rotate cv s angle ih
    | flip cv s mode hr ih => exact good_apply_flip cv s mode ih
    | hist_equalize cv s hr ih => exact good_apply_hist_equalize cv s ih
    | undo_call s hr ih => exact good_undo s ih
    | redo_call s hr ih => exact good_redo s ih
  rcases hg with ⟨he, hi⟩ | ⟨hne, hlo, hhi⟩
  · exact ⟨fun hn => absurd he hn, fun _ => hi⟩
  · exact ⟨fun _ => ⟨hlo, hhi⟩, fun he => absurd he hne⟩

/-- Witness for C3 at the initial state. -/
theorem ProcessingManager.reachable_index_invariant_witness :
    ProcessingManager.initial.current_index = -1 :=
  (ProcessingManager.reachable_index_invariant ProcessingManager.initial
    ProcessingManager.Reachable.init).2 rfl
